import Mathlib

/-!
Verification of the poke-compare pipeline (src/src/app.py).

The source is shallowly embedded: numeric values are modelled as rationals
(exact arithmetic stands in for Python floats, which is faithful for the
count-based percentile formula), fallible computations return `Option` or
`Except`, and the file stores are modelled as the content that the write
calls produce.
-/

namespace PokeCompare

/-- The highest Pokemon id (`MAX_POKEMON = 898` in the source). -/
def MAX_POKEMON : Nat := 898

/-- Embeds the `Pokemon` dataclass: immutable core fields `poke_id`, `name`,
`height`, `weight`; the two percentile properties start as `None`
(modelled `none`) and are set by the analysis pass. -/
structure Pokemon where
  poke_id : Nat
  name : String
  height : ℚ
  weight : ℚ
  height_percentile : Option ℚ
  weight_percentile : Option ℚ
deriving Repr, DecidableEq

/-- Embeds `Pokemon.__init__`: the four core fields are supplied and both
percentile fields are initialised to `None`. -/
def Pokemon.make (poke_id : Nat) (name : String) (height weight : ℚ) : Pokemon :=
  ⟨poke_id, name, height, weight, none, none⟩

/-- Embeds `scipy.stats.percentileofscore(data, score)` with the default
`kind="rank"`, which the source relies on: with
`left = #{x ∈ data | x < score}` and `right = #{x ∈ data | x ≤ score}`,
the result is `(left + right + (1 if score occurs in data else 0)) * 50 / n`.
For empty `data` scipy returns NaN (division of zero counts by `n = 0`),
modelled here as `none`. -/
def percentileofscore (data : List ℚ) (score : ℚ) : Option ℚ :=
  if data.length = 0 then none
  else
    let n : ℚ := data.length
    let left : ℚ := data.countP (fun x => decide (x < score))
    let right : ℚ := data.countP (fun x => decide (x ≤ score))
    some ((left + right + (if left < right then 1 else 0)) * 50 / n)

/-- Embeds `calculate_percentile` (app.py line 164): a direct call to
`stats.percentileofscore(data, value)` wrapped in `float(...)`. -/
def calculate_percentile (data : List ℚ) (value : ℚ) : Option ℚ :=
  percentileofscore data value

/-- Modelled from the spec: the "mean" percentile-rank convention the spec
pins for `computePercentiles` — `100` times (the fraction of population
values strictly less than `score` plus half the fraction equal to `score`).
Used only to compare the spec's stated algorithm with the source's
`calculate_percentile`. -/
def specMeanPercentile (data : List ℚ) (score : ℚ) : Option ℚ :=
  if data.length = 0 then none
  else
    let n : ℚ := data.length
    some (100 * ((data.countP (fun x => decide (x < score)) : ℚ) / n
      + ((data.countP (fun x => decide (x = score)) : ℚ) / n) / 2))


/-!
The `PokemonList` collection and its iteration protocol
-/

/-- Embeds the `PokemonList` dataclass (app.py line 107): a wrapper around
the underlying list `_pokemons`. -/
structure PokemonList where
  _pokemons : List Pokemon
deriving Repr, DecidableEq

/-- Iterator state for `PokemonList`: in Python the object itself is the
iterator (`__iter__` returns `self`), carrying a cursor `_index` next to the
underlying list; the state is modelled explicitly as the pair. -/
structure PokemonListIter where
  pokemons : List Pokemon
  index : Nat
deriving Repr, DecidableEq

/-- Embeds `PokemonList.__iter__` (app.py lines 111-113): resets `_index`
to `0` and hands out the iterator. -/
def PokemonList.iter (l : PokemonList) : PokemonListIter :=
  ⟨l._pokemons, 0⟩

/-- Embeds `PokemonList.__next__` (app.py lines 115-121): while `_index` is
within bounds, return the element at `_index` and advance the cursor;
otherwise raise `StopIteration`, modelled as `none`. -/
def PokemonListIter.next (it : PokemonListIter) : Option (Pokemon × PokemonListIter) :=
  if h : it.index < it.pokemons.length then
    some (it.pokemons.get ⟨it.index, h⟩, ⟨it.pokemons, it.index + 1⟩)
  else
    none

/-- Everything a `for` loop over the iterator observes: the elements yielded
by repeated `__next__` calls until `StopIteration`. -/
def PokemonListIter.drain (it : PokemonListIter) : List Pokemon :=
  if h : it.index < it.pokemons.length then
    it.pokemons.get ⟨it.index, h⟩ :: PokemonListIter.drain ⟨it.pokemons, it.index + 1⟩
  else
    []
termination_by it.pokemons.length - it.index

/-- Embeds the `heights` generator (app.py lines 123-125): yields
`pokemon.height` for each element of `_pokemons`, in list order. -/
def PokemonList.heights (l : PokemonList) : List ℚ :=
  l._pokemons.map Pokemon.height

/-- Embeds the `weights` generator (app.py lines 127-129): yields
`pokemon.weight` for each element of `_pokemons`, in list order. -/
def PokemonList.weights (l : PokemonList) : List ℚ :=
  l._pokemons.map Pokemon.weight

/-!
Retrieval (`get_pokemon_list`)

The HTTP transport is the spec's external collaborator: a fetch capability
`fetch(id) -> record | error`.  The failure taxonomy is the spec's
(`NotFoundError`, `DecodeError`, `TransientNetworkError`).  The source's
`get_pokemon_list` performs one `session.get` per id, serially, in ascending
id order, with **no** exception handling: a raised exception propagates out
of the loop, so the embedding sequences the per-id fetches in the `Except`
monad, where the first error aborts the whole computation.
-/

/-- The spec's fetch failure taxonomy (§4.1 / §7). -/
inductive FetchError where
  | notFound
  | decodeError
  | transientNetworkError
deriving Repr, DecidableEq

/-- Embeds the loop of `get_pokemon_list` (app.py lines 151-160) run over a
list of ids: each id is fetched in turn and the record appended to the
accumulating list; an exception from any fetch propagates and aborts the
whole run (the source has no `try`/`except`), so the first error is the
result and no later id is fetched. -/
def fetch_ids (fetch : Nat → Except FetchError Pokemon) :
    List Nat → Except FetchError (List Pokemon)
  | [] => Except.ok []
  | i :: rest =>
    match fetch i with
    | Except.error e => Except.error e
    | Except.ok p =>
      match fetch_ids fetch rest with
      | Except.error e => Except.error e
      | Except.ok ps => Except.ok (p :: ps)

/-- Embeds `get_pokemon_list` (app.py line 141): serially fetches ids
`1, 2, ..., MAX_POKEMON` (Python `range(1, MAX_POKEMON + 1)`), collects the
records in request order, and wraps them in a `PokemonList`. -/
def get_pokemon_list (fetch : Nat → Except FetchError Pokemon) :
    Except FetchError PokemonList :=
  (fetch_ids fetch (List.range' 1 MAX_POKEMON)).map PokemonList.mk

/-!
Analysis pass and the percentile store
-/

/-- The update the analysis loop body (app.py lines 184-186) applies to one
record: both percentile properties are assigned the percentile of the
record's own value within the whole population. -/
def analyze_record (heights weights : List ℚ) (p : Pokemon) : Pokemon :=
  { p with
    height_percentile := calculate_percentile heights p.height
    weight_percentile := calculate_percentile weights p.weight }

/-- Embeds the in-memory part of `analyze_pokemon_data` (app.py lines
177-186): `heights` and `weights` are materialised once from the collection,
then every record's two percentile properties are assigned. -/
def analyze_pokemon_data (l : PokemonList) : PokemonList :=
  let heights := l.heights
  let weights := l.weights
  PokemonList.mk (l._pokemons.map (analyze_record heights weights))

/-- One data row of `percentiles.csv` (app.py lines 191-194):
`(poke_id, height_percentile, weight_percentile)`. -/
def percentile_row (p : Pokemon) : Nat × Option ℚ × Option ℚ :=
  (p.poke_id, p.height_percentile, p.weight_percentile)

/-- The data rows `analyze_pokemon_data` writes to `percentiles.csv`: one
row per record of the (just analysed) collection, in collection order. -/
def percentile_rows (l : PokemonList) : List (Nat × Option ℚ × Option ℚ) :=
  (analyze_pokemon_data l)._pokemons.map percentile_row

/-- Embeds the persistence effect of one `analyze_pokemon_data` call on the
percentile store: `aiofiles.open("percentiles.csv", "w")` truncates the
file, so the store after the call holds exactly this run's rows; the
previous content `_store` is discarded. -/
def run_analysis (_store : List (Nat × Option ℚ × Option ℚ)) (l : PokemonList) :
    List (Nat × Option ℚ × Option ℚ) :=
  percentile_rows l

/-!
The raw entity store (`pokemon.csv`)
-/

/-- The CSV line written for one record (app.py lines 218-219 and 236-237):
`f"{poke_id},{name},{height},{weight}"`. -/
def pokemon_csv_row (p : Pokemon) : String :=
  toString p.poke_id ++ "," ++ p.name ++ "," ++ toString p.height ++ "," ++ toString p.weight

/-- The header row the spec requires when writing a full collection to the
raw entity store. -/
def pokemon_csv_header : String := "poke_id,name,height,weight"

/-- Embeds `save_all_pokemon_to_csv` (app.py lines 223-238): opens
`pokemon.csv` in `"w"` mode (full replace) and writes one CSV line per
record of the collection — nothing else; the result is the list of lines
the file holds after the call. -/
def save_all_pokemon_to_csv (l : PokemonList) : List String :=
  l._pokemons.map pokemon_csv_row

/-!
Helper lemmas
-/

/-- Counting `≤ score` splits into counting `< score` and counting `= score`. -/
theorem countP_le_split (data : List ℚ) (v : ℚ) :
    (data.countP fun x => decide (x ≤ v)) =
      (data.countP fun x => decide (x < v)) + (data.countP fun x => decide (x = v)) := by
  induction data with
  | nil => rfl
  | cons a t ih =>
    rcases lt_trichotomy a v with h | h | h
    · simp [List.countP_cons, ih, h, le_of_lt h, ne_of_lt h]
      omega
    · subst h
      simp [List.countP_cons, ih, lt_irrefl]
      omega
    · simp [List.countP_cons, ih, not_lt.mpr (le_of_lt h), not_le.mpr h, (ne_of_lt h).symm]

/-- The count of values equal to `v` is positive exactly when `v` occurs. -/
theorem countP_eq_pos_iff_mem (data : List ℚ) (v : ℚ) :
    0 < (data.countP fun x => decide (x = v)) ↔ v ∈ data := by
  rw [List.countP_pos_iff]
  constructor
  · rintro ⟨a, ha, hav⟩
    exact (of_decide_eq_true hav) ▸ ha
  · intro hv
    exact ⟨v, hv, by simp⟩

/-!
Claims
-/

/-- Claim C1, counterexample. The claim says `calculate_percentile` uses the
mean percentile-rank convention and in particular maps the population
`[1,2,3]` to the ranks `{v=1: 16.67, v=2: 50.0, v=3: 83.33}`.  The source
calls `stats.percentileofscore` with its default `kind="rank"`: on
`[1,2,3]` the value `1` gets rank `100/3 ≈ 33.33`, not the mean-convention
value `50/3 ≈ 16.67` (and not the claimed `16.67`). -/
theorem C1_counterexample :
    calculate_percentile [1, 2, 3] 1 = some (100 / 3) ∧
    specMeanPercentile [1, 2, 3] 1 = some (50 / 3) ∧
    calculate_percentile [1, 2, 3] 1 ≠ specMeanPercentile [1, 2, 3] 1 ∧
    calculate_percentile [1, 2, 3] 1 ≠ some (1667 / 100) := by
  refine ⟨?_, ?_, ?_, ?_⟩ <;>
    norm_num [calculate_percentile, percentileofscore, specMeanPercentile,
      List.countP, List.countP.go]

/-- Claim C1, amended. `calculate_percentile` follows scipy's default
`kind="rank"` convention: for every nonempty population the rank is `100`
times the fraction strictly less than `v`, plus `50` times the fraction
equal to `v`, plus an extra `50/N` whenever `v` itself occurs in the
population; in particular for the population `[1,2,3]` the computed ranks
are `{v=1: 100/3, v=2: 200/3, v=3: 100}`. -/
theorem C1_amended_rank_convention (data : List ℚ) (v : ℚ) (h : data ≠ []) :
    calculate_percentile data v =
      some (100 * ((data.countP fun x => decide (x < v)) : ℚ) / data.length
        + 50 * ((data.countP fun x => decide (x = v)) : ℚ) / data.length
        + (if v ∈ data then 50 / (data.length : ℚ) else 0)) ∧
    calculate_percentile [1, 2, 3] 1 = some (100 / 3) ∧
    calculate_percentile [1, 2, 3] 2 = some (200 / 3) ∧
    calculate_percentile [1, 2, 3] 3 = some 100 := by
  refine ⟨?_, ?_, ?_, ?_⟩
  · have hn0 : data.length ≠ 0 := fun hh => h (List.length_eq_zero.mp hh)
    have hn : (data.length : ℚ) ≠ 0 := Nat.cast_ne_zero.mpr hn0
    have hsplit := countP_le_split data v
    have hcond : (((data.countP fun x => decide (x < v)) : ℚ) <
        ((data.countP fun x => decide (x ≤ v)) : ℚ)) ↔ v ∈ data := by
      rw [Nat.cast_lt, hsplit, ← countP_eq_pos_iff_mem data v]
      omega
    simp only [calculate_percentile, percentileofscore, hn0, if_false]
    rw [if_congr hcond rfl rfl]
    by_cases hv : v ∈ data
    · simp only [hv, if_true, Option.some.injEq]
      rw [hsplit]
      push_cast
      field_simp
      ring
    · simp only [hv, if_false, Option.some.injEq]
      rw [hsplit]
      push_cast
      field_simp
      ring
  all_goals
    norm_num [calculate_percentile, percentileofscore, List.countP, List.countP.go]

/-- Claim C1 witness: the amended theorem applied to the concrete population
`[1,2,3]` with `v = 2`. -/
theorem C1_amended_witness :
    calculate_percentile [1, 2, 3] 2 =
      some (100 * (([1, 2, 3].countP fun x => decide (x < 2)) : ℚ) / [1, 2, 3].length
        + 50 * (([1, 2, 3].countP fun x => decide (x = 2)) : ℚ) / [1, 2, 3].length
        + (if (2 : ℚ) ∈ [1, 2, 3] then 50 / (([1, 2, 3].length : Nat) : ℚ) else 0)) :=
  (C1_amended_rank_convention [1, 2, 3] 2 (by simp)).1

/-- Claim C2, counterexample. The claim says a percentile over an empty
population fails with `EmptyPopulationError` and never yields a NaN result.
The source defines no such error: `stats.percentileofscore([], v)` divides
zero counts by `N = 0` and returns NaN (modelled `none`), which
`calculate_percentile` passes through — so the empty population does
produce the NaN result the claim rules out. -/
theorem C2_counterexample : calculate_percentile [] 0 = none := rfl

/-- Claim C2, amended. The empty population is the one and only input on
which `calculate_percentile` returns NaN (`none`) instead of a number; no
`EmptyPopulationError` exists in the code, so no error is raised. -/
theorem C2_amended_empty_gives_nan (data : List ℚ) (v : ℚ) :
    calculate_percentile data v = none ↔ data = [] := by
  unfold calculate_percentile percentileofscore
  by_cases h : data.length = 0
  · simp [h, List.length_eq_zero.mp h]
  · simp [h, List.length_eq_zero]
    exact fun hd => h (by simp [hd])

/-- Claim C5. A population of exactly one value assigns that value the
percentile rank `100`: no value is strictly below it, one value (itself)
ties with it, and scipy's `rank` convention yields `(0 + 1 + 1) · 50 / 1 = 100`. -/
theorem C5_singleton_percentile_100 (x : ℚ) : calculate_percentile [x] x = some 100 := by
  simp [calculate_percentile, percentileofscore, List.countP, List.countP.go, lt_irrefl]
  norm_num

/-- Claim C8. The percentile computation is order-independent and
repeat-stable: permuting the population never changes any value's computed
rank (the formula only counts comparisons), and running the analysis pass a
second time over an already-analysed collection writes exactly the same
per-id rows (the pass reads only the immutable core fields). -/
theorem C8_order_independent (data data2 : List ℚ) (v : ℚ) (hperm : data.Perm data2)
    (l : PokemonList) :
    calculate_percentile data v = calculate_percentile data2 v ∧
    percentile_rows (analyze_pokemon_data l) = percentile_rows l := by
  constructor
  · unfold calculate_percentile percentileofscore
    rw [hperm.length_eq, hperm.countP_eq, hperm.countP_eq]
  · simp only [percentile_rows, analyze_pokemon_data, PokemonList.heights, PokemonList.weights,
      analyze_record, List.map_map]
    rfl

/-- Claim C8 witness: the theorem at the concrete permutation
`[1,2] ~ [2,1]`, value `1`, and the empty collection. -/
theorem C8_witness :
    calculate_percentile [1, 2] 1 = calculate_percentile [2, 1] 1 ∧
    percentile_rows (analyze_pokemon_data (PokemonList.mk [])) =
      percentile_rows (PokemonList.mk []) :=
  C8_order_independent [1, 2] [2, 1] 1 (List.Perm.swap 2 1 []) (PokemonList.mk [])

/-- A fetch capability on which every id succeeds, returning a record
carrying the requested id. -/
def fetch_ok : Nat → Except FetchError Pokemon :=
  fun i => Except.ok (Pokemon.make i "pokemon" 1 1)

/-- A fetch capability on which id `2` permanently fails (not found) and
every other id succeeds. -/
def fetch_fail2 : Nat → Except FetchError Pokemon :=
  fun i => if i = 2 then Except.error FetchError.notFound
    else Except.ok (Pokemon.make i "pokemon" 1 1)

/-- When every fetch succeeds, `fetch_ids` returns the per-id records in
request order. -/
theorem fetch_ids_ok_of_total (g : Nat → Pokemon) (ids : List Nat) :
    fetch_ids (fun i => Except.ok (g i)) ids = Except.ok (ids.map g) := by
  induction ids with
  | nil => rfl
  | cons a t ih => simp [fetch_ids, ih]

/-- If any id in the requested list fails to fetch, the whole `fetch_ids`
run returns an error (the uncaught exception propagates). -/
theorem fetch_ids_error_of_mem (fetch : Nat → Except FetchError Pokemon)
    (ids : List Nat) (k : Nat) (hk : k ∈ ids) (e : FetchError)
    (hf : fetch k = Except.error e) :
    ∃ e2, fetch_ids fetch ids = Except.error e2 := by
  induction ids with
  | nil => cases hk
  | cons a t ih =>
    rcases List.mem_cons.mp hk with rfl | hkt
    · exact ⟨e, by simp [fetch_ids, hf]⟩
    · cases hfa : fetch a with
      | error e3 => exact ⟨e3, by simp [fetch_ids, hfa]⟩
      | ok p =>
        obtain ⟨e2, he2⟩ := ih hkt
        exact ⟨e2, by simp [fetch_ids, hfa, he2]⟩

/-- On success, `fetch_ids` maps each requested id to a record; if every
successful fetch carries the requested id, the result's ids are exactly the
requested ids, in request order. -/
theorem fetch_ids_ok_ids (fetch : Nat → Except FetchError Pokemon)
    (hid : ∀ i p, fetch i = Except.ok p → p.poke_id = i)
    (ids : List Nat) (l : List Pokemon) (h : fetch_ids fetch ids = Except.ok l) :
    l.map Pokemon.poke_id = ids := by
  induction ids generalizing l with
  | nil =>
    cases h
    rfl
  | cons a t ih =>
    rw [fetch_ids] at h
    cases hfa : fetch a with
    | error e => rw [hfa] at h; cases h
    | ok p =>
      rw [hfa] at h
      cases hft : fetch_ids fetch t with
      | error e => rw [hft] at h; cases h
      | ok rest =>
        rw [hft] at h
        cases h
        simp [hid a p hfa, ih rest hft]

/-- Claim C3, counterexample. The claim says a permanent per-id failure is
omitted from the collection, reported in a failure summary, and never aborts
the run.  `get_pokemon_list` has no exception handling: with a fetch on
which id `2` fails (not found), the whole retrieval returns that error — no
collection omitting id `2` is produced, nothing else is fetched usefully,
and no failure summary exists in the code. -/
theorem C3_counterexample :
    get_pokemon_list fetch_fail2 = Except.error FetchError.notFound := rfl

/-- Claim C3, amended. A permanent per-id failure aborts the whole run: if
any id in `[1, MAX_POKEMON]` fails to fetch, `get_pokemon_list` returns an
error instead of a collection (the exception propagates out of the
retrieval loop; there is no per-id catch and no failure summary). -/
theorem C3_amended_failure_aborts (fetch : Nat → Except FetchError Pokemon)
    (k : Nat) (hk : k ∈ List.range' 1 MAX_POKEMON) (e : FetchError)
    (hf : fetch k = Except.error e) :
    ∃ e2, get_pokemon_list fetch = Except.error e2 := by
  obtain ⟨e2, he2⟩ := fetch_ids_error_of_mem fetch (List.range' 1 MAX_POKEMON) k hk e hf
  exact ⟨e2, by rw [get_pokemon_list, he2]; rfl⟩

/-- Claim C3 witness: the amended theorem at the concrete fetch on which id
`2` fails. -/
theorem C3_amended_witness :
    ∃ e2, get_pokemon_list fetch_fail2 = Except.error e2 :=
  C3_amended_failure_aborts fetch_fail2 2 (by simp [MAX_POKEMON]) FetchError.notFound rfl

/-- Claim C4. On the runs that produce a collection at all — the code is a
single serial loop, so request order is the one completion order, and a run
with any failed id returns an error instead (see C3) — the collection is
sorted strictly ascending by id with all ids distinct, provided each fetched
record carries the id that was requested: the loop appends records in
ascending request order `1, 2, ..., MAX_POKEMON`. -/
theorem C4_collection_sorted (fetch : Nat → Except FetchError Pokemon)
    (hid : ∀ i p, fetch i = Except.ok p → p.poke_id = i)
    (l : PokemonList) (h : get_pokemon_list fetch = Except.ok l) :
    List.Sorted (· < ·) (l._pokemons.map Pokemon.poke_id) ∧
    (l._pokemons.map Pokemon.poke_id).Nodup := by
  have hids : l._pokemons.map Pokemon.poke_id = List.range' 1 MAX_POKEMON := by
    rw [get_pokemon_list] at h
    cases hft : fetch_ids fetch (List.range' 1 MAX_POKEMON) with
    | error e => rw [hft] at h; simp [Except.map] at h
    | ok rest =>
      rw [hft] at h
      simp [Except.map] at h
      subst h
      exact fetch_ids_ok_ids fetch hid _ rest hft
  rw [hids]
  exact ⟨List.pairwise_lt_range' 1 MAX_POKEMON, List.nodup_range' 1 MAX_POKEMON⟩

/-- Claim C4 witness: the theorem at the all-succeeding fetch, whose resulting
collection is the records for ids `1, ..., MAX_POKEMON` in order. -/
theorem C4_witness :
    List.Sorted (· < ·)
      ((((List.range' 1 MAX_POKEMON).map fun i => Pokemon.make i "pokemon" 1 1)).map
        Pokemon.poke_id) ∧
    ((((List.range' 1 MAX_POKEMON).map fun i => Pokemon.make i "pokemon" 1 1)).map
        Pokemon.poke_id).Nodup :=
  C4_collection_sorted fetch_ok
    (by intro i p hp; cases hp; rfl)
    (PokemonList.mk ((List.range' 1 MAX_POKEMON).map fun i => Pokemon.make i "pokemon" 1 1))
    (by rw [get_pokemon_list]; unfold fetch_ok; rw [fetch_ids_ok_of_total]; rfl)

/-- Claim C6, code bug. The claim says a full-collection write to the raw entity store
begins with the header row `poke_id,name,height,weight`.
`save_all_pokemon_to_csv` writes one data row per record and **no header at
all** — yet `read_pokemon_from_csv` (app.py line 197) reads the very same
`pokemon.csv` through `pd.read_csv` and accesses the columns `poke_id`,
`name`, `height`, `weight`, which requires that header: the code contradicts
its own reader, so the claim is right and the code is wrong.  Evaluated at
the one-record collection `[Pokemon(1, "bulbasaur", 7, 69)]`: the file holds
exactly the data row, and its first line is not the header. -/
theorem C6_missing_header :
    save_all_pokemon_to_csv (PokemonList.mk [Pokemon.make 1 "bulbasaur" 7 69]) =
      ["1,bulbasaur,7,69"] ∧
    (["1,bulbasaur,7,69"].head? ≠ some pokemon_csv_header) ∧
    (∀ l : PokemonList, save_all_pokemon_to_csv l = l._pokemons.map pokemon_csv_row) :=
  ⟨rfl, by decide, fun _ => rfl⟩

/-- Claim C7. The percentile store is written as a full replace: whatever the
store held before, after a second analysis run its content is exactly the
rows of the second run — one `(poke_id, height_percentile,
weight_percentile)` row per record of the second population, in collection
order, with nothing left over from the first run. -/
theorem C7_full_replace (store : List (Nat × Option ℚ × Option ℚ)) (l1 l2 : PokemonList) :
    run_analysis (run_analysis store l1) l2 = percentile_rows l2 ∧
    (percentile_rows l2).map Prod.fst = l2._pokemons.map Pokemon.poke_id ∧
    (percentile_rows l2).length = l2._pokemons.length := by
  refine ⟨rfl, ?_, ?_⟩ <;>
    simp [percentile_rows, analyze_pokemon_data, percentile_row, analyze_record,
      List.map_map, Function.comp]

/-- Claim C9. The analysis pass is frame-correct: it preserves every record's
immutable core (`poke_id`, `name`, `height`, `weight`) and assigns each
record's two percentile fields exactly the percentile of its own value
within the full population — the single assignment the loop performs. -/
theorem C9_frame (l : PokemonList) :
    (analyze_pokemon_data l)._pokemons.map (fun p => (p.poke_id, p.name, p.height, p.weight))
      = l._pokemons.map (fun p => (p.poke_id, p.name, p.height, p.weight)) ∧
    (analyze_pokemon_data l)._pokemons.map Pokemon.height_percentile
      = l._pokemons.map (fun p => calculate_percentile l.heights p.height) ∧
    (analyze_pokemon_data l)._pokemons.map Pokemon.weight_percentile
      = l._pokemons.map (fun p => calculate_percentile l.weights p.weight) := by
  refine ⟨?_, ?_, ?_⟩ <;>
    simp only [analyze_pokemon_data, analyze_record, List.map_map] <;> rfl

/-- Claim C10. A fresh iteration over a `PokemonList` yields exactly the
records of the underlying list, in stored order, each exactly once, and then
stops (a `next` at the end is `StopIteration`/`none`); the `heights` and
`weights` generators yield the corresponding attribute of each record in
the same order and of the same length. -/
theorem C10_iteration (l : PokemonList) :
    PokemonListIter.drain l.iter = l._pokemons ∧
    PokemonListIter.next ⟨l._pokemons, l._pokemons.length⟩ = none ∧
    l.heights = l._pokemons.map Pokemon.height ∧
    l.weights = l._pokemons.map Pokemon.weight ∧
    l.heights.length = l._pokemons.length ∧
    l.weights.length = l._pokemons.length := by
  have drain_eq : ∀ (n : Nat) (i : Nat), l._pokemons.length - i ≤ n →
      PokemonListIter.drain ⟨l._pokemons, i⟩ = l._pokemons.drop i := by
    intro n
    induction n with
    | zero =>
      intro i hle
      have hge : l._pokemons.length ≤ i := by omega
      rw [PokemonListIter.drain]
      simp [not_lt.mpr hge, List.drop_eq_nil_of_le hge]
    | succ m ih =>
      intro i hle
      rw [PokemonListIter.drain]
      by_cases hlt : i < l._pokemons.length
      · simp only [hlt, dif_pos]
        rw [ih (i + 1) (by omega)]
        rw [List.drop_eq_getElem_cons hlt]
        rfl
      · simp [hlt, List.drop_eq_nil_of_le (not_lt.mp hlt)]
  refine ⟨?_, ?_, rfl, rfl, by simp [PokemonList.heights], by simp [PokemonList.weights]⟩
  · rw [PokemonList.iter, drain_eq l._pokemons.length 0 (by omega)]
    rfl
  · rw [PokemonListIter.next]
    simp

end PokeCompare
